import Mathlib

/-!
Verification development for the stock-trading-simulator repository.

The definitions below are shallow embeddings of the Python source:

* `Simulator.executeTrade`   embeds `Simulator.execute_trade`   (src/simulator.py, lines 110-173);
* `Simulator.totalReturn`, `Simulator.sharpe`, `Simulator.maxDrawdown`, `Simulator.winRate`
  embed the four metrics of `Simulator.calculate_metrics` (src/simulator.py, lines 175-213);
* `Backtester.backtest`      embeds `Backtester.backtest`       (src/backtester.py, lines 20-73,
  restricted to the columns Signal, Close, Position, Shares, Balance, Transaction_Cost,
  Portfolio_Value; the trailing return columns are not needed by any claim);
* `Portfolio.backtest`       embeds `Portfolio.backtest`        (src/portfolio.py, lines 49-94),
  which is line-for-line identical to `Backtester.backtest` in the source;
* `Portfolio.executeTrade`   embeds `Portfolio.execute_trade`   (src/portfolio.py, lines 19-47).

Python floats are modelled by `ℚ`; `NaN`-able pandas columns (a `shift(1)` at row 0, a `Close`
reindexed from a mismatched price frame) are modelled by `Option ℚ` with `none` for `NaN`,
and arithmetic on such columns propagates `none` exactly as float arithmetic propagates `NaN`.
Python `int(x)` is truncation toward zero (`ratTrunc`), Python float `//` is `⌊·⌋`.
-/

set_option maxRecDepth 2000

/-- Python `int(x)` on a float: truncation toward zero. -/
def ratTrunc (q : ℚ) : Int :=
  if 0 ≤ q then ⌊q⌋ else -⌊-q⌋

/-- Python float floor division `//`: the floor of the exact quotient. -/
def ratFloor (q : ℚ) : Int :=
  ⌊q⌋

/-- pandas `Series.pct_change` helper: each element divided by its predecessor, minus 1. -/
def pctGo (p : ℚ) : List ℚ → List ℚ
  | [] => []
  | v :: vs => (v / p - 1) :: pctGo v vs

/-- pandas `Series.pct_change().fillna(0)`: first entry 0, then `v_t / v_(t-1) - 1`. -/
def pctChange : List ℚ → List ℚ
  | [] => []
  | v :: vs => 0 :: pctGo v vs

/-- pandas `Series.mean`. -/
def listMean (l : List ℚ) : ℚ :=
  l.sum / (l.length : ℚ)

/-- pandas sample variance (`ddof=1`), whose square root is `Series.std`.  For lists of
length at most 1 the rational division by zero yields 0, mirroring the fact that the
float `std` is `NaN` there and every `NaN` comparison is false. -/
def svar (l : List ℚ) : ℚ :=
  (l.map (fun x => (x - listMean l) ^ 2)).sum / ((l.length : ℚ) - 1)

/-- pandas `Series.min` on a nonempty series (0 for the empty series, which no claim uses). -/
def listMin : List ℚ → ℚ
  | [] => 0
  | v :: vs => vs.foldl min v

/-- A pandas cell that may hold `NaN`. -/
abbrev OQ := Option ℚ

/-- Lift a binary float operation to `NaN`-able cells: `NaN` propagates. -/
def olift (f : ℚ → ℚ → ℚ) : OQ → OQ → OQ
  | some a, some b => some (f a b)
  | _, _ => none

def oadd : OQ → OQ → OQ := olift (· + ·)

def osub : OQ → OQ → OQ := olift (· - ·)

def omul : OQ → OQ → OQ := olift (· * ·)

def odiv : OQ → OQ → OQ := olift (· / ·)

/-- pandas `fillna(method='ffill')` on a `NaN`-able column, carrying the last seen value. -/
def ffillO (last : OQ) : List OQ → List OQ
  | [] => []
  | b :: bs =>
    match b with
    | none => last :: ffillO last bs
    | some x => some x :: ffillO (some x) bs

/-- pandas `replace(0, nan).ffill().fillna(0)` on an integer column: each entry becomes the
last nonzero entry at or before it, 0 if there is none. -/
def ffillZ (last : Int) : List Int → List Int
  | [] => []
  | p :: ps =>
    let q := if p = 0 then last else p
    q :: ffillZ q ps

namespace Simulator

/-- One row of the `results` frame built by `Simulator.execute_trade` during the loop
(columns Signal, Close, Shares, Balance, Transaction_Cost, Position; the `Buy_Price`
column is written but never read by any consumer and is omitted). -/
structure SRow where
  signal : Int
  close : ℚ
  shares : ℚ
  balance : ℚ
  tcost : ℚ
  position : Int
  deriving DecidableEq

/-- A row after the post-loop column assignment `Portfolio_Value = Balance + Shares*Close`
(src/simulator.py line 165). -/
structure TRow extends SRow where
  pv : ℚ
  deriving DecidableEq

/-- The trade performed at a row of the loop, used to state event-timing claims. -/
inductive Action where
  | buy
  | sell
  | hold
  deriving DecidableEq

/-- One iteration of the loop of `Simulator.execute_trade` (src/simulator.py lines 124-162):
branch on the signal and the open-position state, then the carry-forward block.
`prev` is the previous, fully processed row (`none` on the first date). -/
def simStep (init tc tp sl : ℚ) (posOpen : Bool) (buyPrice : ℚ) (prev : Option SRow)
    (sig : Int) (close : ℚ) : SRow × Bool × ℚ × Action :=
  let r0 : SRow := ⟨sig, close, 0, init, 0, 0⟩
  let step :=
    if sig = 1 ∧ ¬posOpen then
      -- buy: shares = int((Balance - transaction_cost) / Close), with Balance still the
      -- initialisation value `initial_balance`, the loop having not yet touched this row
      let sh : Int := ratTrunc ((r0.balance - tc) / close)
      (⟨sig, close, (sh : ℚ), r0.balance - ((sh : ℚ) * close + tc), tc, 1⟩,
        true, close, Action.buy)
    else if posOpen then
      let change := (close - buyPrice) / buyPrice
      if change ≥ tp ∨ change ≤ -sl then
        -- sell: credit int(prev_shares*close - transaction_cost); the previous date of the
        -- first row wraps to the last row, whose Shares cell is still the initial 0.0
        let sh : ℚ := (prev.map SRow.shares).getD 0
        (⟨sig, close, 0, r0.balance + (ratTrunc (sh * close - tc) : ℚ), tc, 0⟩,
          false, buyPrice, Action.sell)
      else (r0, posOpen, buyPrice, Action.hold)
    else (r0, posOpen, buyPrice, Action.hold)
  match prev, step with
  | none, s => s
  | some p, (r1, st) =>
    -- carry-forward block (lines 156-162): Shares and Balance only when untouched,
    -- Position unconditionally
    let r2 := if r1.shares = 0 then { r1 with shares := p.shares } else r1
    let r3 := if r2.balance = init then { r2 with balance := p.balance } else r2
    ({ r3 with position := p.position }, st)

/-- The loop of `Simulator.execute_trade` over the aligned (signal, close) rows, also
returning the trade action of each row. -/
def simRun (init tc tp sl : ℚ) (posOpen : Bool) (buyPrice : ℚ) (prev : Option SRow) :
    List (Int × ℚ) → List (SRow × Action)
  | [] => []
  | (sig, close) :: rest =>
    match simStep init tc tp sl posOpen buyPrice prev sig close with
    | (r, o2, b2, a) => (r, a) :: simRun init tc tp sl o2 b2 (some r) rest

/-- `Simulator.execute_trade` (src/simulator.py lines 110-173): the loop, then the
column-wide assignment `Portfolio_Value = Balance + Shares*Close`. -/
def executeTrade (init tc tp sl : ℚ) (rows : List (Int × ℚ)) : List TRow :=
  (simRun init tc tp sl false 0 none rows).map
    (fun ra => TRow.mk ra.1 (ra.1.balance + ra.1.shares * ra.1.close))

/-- The action column of a full `Simulator.execute_trade` run. -/
def tradeActions (init tc tp sl : ℚ) (rows : List (Int × ℚ)) : List Action :=
  (simRun init tc tp sl false 0 none rows).map Prod.snd

/-- Total return of `Simulator.calculate_metrics` (src/simulator.py lines 185-189),
applied to the Portfolio_Value column. -/
def totalReturn (init : ℚ) (pv : List ℚ) : ℚ :=
  (pv.getLastD 0 - init) / init * 100

/-- The excess-return series of `Simulator.calculate_metrics` (src/simulator.py lines
192-194): daily returns of the Portfolio_Value column minus the daily risk-free rate. -/
def excessReturns (pv : List ℚ) : List ℚ :=
  (pctChange pv).map (fun r => r - (1 / 100) / 252)

/-- Sharpe ratio of `Simulator.calculate_metrics` (src/simulator.py lines 195-199):
`sqrt(252) * mean / std` of the excess returns when their standard deviation is
positive, else 0.  `std > 0` is `0 < svar` since `std = sqrt svar` and a `NaN` std
(series of length at most 1) compares false, exactly as `svar = 0` does. -/
noncomputable def sharpe (pv : List ℚ) : ℝ :=
  if 0 < svar (excessReturns pv) then
    Real.sqrt 252 * ((listMean (excessReturns pv) : ℚ) : ℝ) / Real.sqrt ((svar (excessReturns pv) : ℚ) : ℝ)
  else 0

/-- The expanding-maximum drawdown column of `Simulator.calculate_metrics`
(src/simulator.py lines 202-203): `(V_t - runmax_t) / runmax_t`. -/
def ddGo (m : ℚ) : List ℚ → List ℚ
  | [] => []
  | v :: vs => (v - max m v) / max m v :: ddGo (max m v) vs

/-- `drawdowns = (PV - PV.expanding().max()) / PV.expanding().max()`. -/
def drawdowns : List ℚ → List ℚ
  | [] => []
  | v :: vs => ddGo v (v :: vs)

/-- Maximum drawdown of `Simulator.calculate_metrics` (src/simulator.py lines 201-204):
`drawdowns.min() * 100`. -/
def maxDrawdown (pv : List ℚ) : ℚ :=
  listMin (drawdowns pv) * 100

/-- Win rate of `Simulator.calculate_metrics` (src/simulator.py lines 206-211): the share
of positive daily returns among the nonzero daily returns of the Portfolio_Value column,
as a percentage, 0 when every daily return is zero. -/
def winRate (pv : List ℚ) : ℚ :=
  let dr := pctChange pv
  let winning := (dr.filter (fun r => decide (0 < r))).length
  let total := (dr.filter (fun r => decide (r ≠ 0))).length
  if 0 < total then (winning : ℚ) / (total : ℚ) * 100 else 0

end Simulator

/-- One row of the `results` frame of the vectorized backtests, restricted to the columns
that `Backtester.backtest` and `Portfolio.backtest` share (Signal, Close, Position,
Shares, Balance, Transaction_Cost, Portfolio_Value).  Columns that a `NaN` can reach
(a `Close` reindexed from a mismatched price frame, the shares/balance/value arithmetic
derived from it, and the row-0 `shift(1)`) are `NaN`-able. -/
structure BRow where
  signal : Int
  close : OQ
  shares : OQ
  balance : OQ
  tcost : ℚ
  position : Int
  pv : OQ
  deriving DecidableEq

/-- Zip the seven columns of the final frame back into rows. -/
def assembleRows : List (Int × OQ) → List OQ → List OQ → List ℚ → List Int → List OQ → List BRow
  | (s, c) :: rs, sh :: shs, b :: bs, t :: ts, p :: ps, v :: vs =>
    ⟨s, c, sh, b, t, p, v⟩ :: assembleRows rs shs bs ts ps vs
  | _, _, _, _, _, _ => []

namespace Backtester

/-- `Backtester.backtest` (src/backtester.py lines 20-73), column by column in source
order: the Shares column from the buy/sell masks over the freshly initialised Balance
column, the Transaction_Cost column, the Balance updates using the current row's Shares
on buys and the `shift(1)` Shares on sells, the Position column
`replace(0, nan).ffill().fillna(0)`, the Balance `ffill`, and finally
`Portfolio_Value = Balance + Shares * Close`. -/
def backtest (init tc : ℚ) (rows : List (Int × OQ)) : List BRow :=
  let closes := rows.map Prod.snd
  let shares := rows.map (fun r =>
    if r.1 = 1 then odiv (osub (some init) (some tc)) r.2 else some 0)
  let tcost := rows.map (fun r => if r.1 = 1 then tc else (0 : ℚ))
  let shback : List OQ := (none : OQ) :: shares
  let balance := List.zipWith
    (fun (r : Int × OQ) (p : OQ × OQ) =>
      if r.1 = 1 then osub (some init) (oadd (omul p.1 r.2) (some tc))
      else if r.1 = -1 then oadd (some init) (osub (omul p.2 r.2) (some tc))
      else some init)
    rows (shares.zip shback)
  let balanceF := ffillO none balance
  let posRaw := rows.map (fun r =>
    (if r.1 = 1 then (1 : Int) else 0) - (if r.1 = -1 then 1 else 0))
  let pos := ffillZ 0 posRaw
  let pv := List.zipWith oadd balanceF (List.zipWith omul shares closes)
  assembleRows rows shares balanceF tcost pos pv

/-- Timestamp lookup of pandas index alignment: `results['Close'] = df['Close']` matches
rows by timestamp and yields `NaN` where the price frame has no such timestamp. -/
def priceAt : List (Nat × ℚ) → Nat → OQ
  | [], _ => none
  | (u, c) :: ps, t => if u = t then some c else priceAt ps t

/-- `Backtester.backtest` called on a time-indexed price frame and a time-indexed signal
series, as the callers do: one result row per signal timestamp, with the Close cell
aligned by timestamp (`NaN` when the price frame lacks it).  The source performs no
validation of any kind before or during this construction. -/
def backtestIndexed (init tc : ℚ) (prices : List (Nat × ℚ)) (signals : List (Nat × Int)) :
    List BRow :=
  backtest init tc (signals.map (fun s => (s.2, priceAt prices s.1)))

end Backtester

namespace Portfolio

/-- `Portfolio.backtest` (src/portfolio.py lines 49-94), which is line-for-line the same
vectorized computation as `Backtester.backtest` in the source. -/
def backtest (init tc : ℚ) (rows : List (Int × OQ)) : List BRow :=
  let closes := rows.map Prod.snd
  let shares := rows.map (fun r =>
    if r.1 = 1 then odiv (osub (some init) (some tc)) r.2 else some 0)
  let tcost := rows.map (fun r => if r.1 = 1 then tc else (0 : ℚ))
  let shback : List OQ := (none : OQ) :: shares
  let balance := List.zipWith
    (fun (r : Int × OQ) (p : OQ × OQ) =>
      if r.1 = 1 then osub (some init) (oadd (omul p.1 r.2) (some tc))
      else if r.1 = -1 then oadd (some init) (osub (omul p.2 r.2) (some tc))
      else some init)
    rows (shares.zip shback)
  let balanceF := ffillO none balance
  let posRaw := rows.map (fun r =>
    (if r.1 = 1 then (1 : Int) else 0) - (if r.1 = -1 then 1 else 0))
  let pos := ffillZ 0 posRaw
  let pv := List.zipWith oadd balanceF (List.zipWith omul shares closes)
  assembleRows rows shares balanceF tcost pos pv

/-- The portfolio state of `Portfolio.__init__` (src/portfolio.py lines 5-17). -/
structure PState where
  balance : ℚ
  position : Int
  shares : ℚ
  deriving DecidableEq

/-- `Portfolio.execute_trade` (src/portfolio.py lines 19-47): a buy when flat computes
`max_shares = (balance - transaction_cost) // price` and is a no-op unless
`max_shares > 0`; a sell when long with shares credits the proceeds minus the fee. -/
def executeTrade (tc : ℚ) (st : PState) (price : ℚ) (signal : Int) : PState :=
  if signal = 1 ∧ st.position = 0 then
    let maxShares : Int := ratFloor ((st.balance - tc) / price)
    if 0 < maxShares then
      ⟨st.balance - ((maxShares : ℚ) * price + tc), 1, (maxShares : ℚ)⟩
    else st
  else if signal = -1 ∧ st.position = 1 then
    if 0 < st.shares then ⟨st.balance + (st.shares * price - tc), 0, 0⟩ else st
  else st

/-- The state after each call in a sequence of `Portfolio.execute_trade` calls. -/
def states (tc : ℚ) (st : PState) : List (ℚ × Int) → List PState
  | [] => []
  | (p, s) :: rest =>
    let st2 := executeTrade tc st p s
    st2 :: states tc st2 rest

/-- The `total_value` entry of the dict returned by each `Portfolio.execute_trade` call
(src/portfolio.py line 46): `balance + shares * price`. -/
def values (tc : ℚ) (st : PState) : List (ℚ × Int) → List ℚ
  | [] => []
  | (p, s) :: rest =>
    let st2 := executeTrade tc st p s
    (st2.balance + st2.shares * p) :: values tc st2 rest

end Portfolio

section Lemmas

/-- Every assembled row whose Portfolio_Value column was computed as
`Balance + Shares * Close` from its own Balance/Shares/Close columns satisfies that
equation. -/
lemma assembleRows_pv (rs : List (Int × OQ)) (shs bs : List OQ) (ts : List ℚ) (ps : List Int)
    (r : BRow)
    (h : r ∈ assembleRows rs shs bs ts ps
      (List.zipWith oadd bs (List.zipWith omul shs (rs.map Prod.snd)))) :
    r.pv = oadd r.balance (omul r.shares r.close) := by
  induction rs generalizing shs bs ts ps with
  | nil => cases shs <;> cases bs <;> cases ts <;> cases ps <;> simp [assembleRows] at h
  | cons rc rs ih =>
    obtain ⟨s, c⟩ := rc
    cases shs with
    | nil => cases bs <;> cases ts <;> cases ps <;> simp [assembleRows] at h
    | cons sh shs =>
      cases bs with
      | nil => cases ts <;> cases ps <;> simp [assembleRows] at h
      | cons b bs =>
        cases ts with
        | nil => cases ps <;> simp [assembleRows] at h
        | cons t ts =>
          cases ps with
          | nil => simp [assembleRows] at h
          | cons p ps =>
            simp only [List.map_cons, List.zipWith_cons_cons, assembleRows,
              List.mem_cons] at h
            rcases h with h | h
            · subst h; rfl
            · exact ih shs bs ts ps h

/-- While a position is open, one simulator step sells exactly when the take-profit or
stop-loss threshold is met at the current close, and otherwise leaves the open state
and the stored entry price unchanged. -/
lemma simStep_snd_open (init tc tp sl b : ℚ) (prev : Option Simulator.SRow) (s : Int)
    (c : ℚ) :
    (Simulator.simStep init tc tp sl true b prev s c).2
      = if (c - b) / b ≥ tp ∨ (c - b) / b ≤ -sl then (false, b, Simulator.Action.sell)
        else (true, b, Simulator.Action.hold) := by
  by_cases h : (c - b) / b ≥ tp ∨ (c - b) / b ≤ -sl <;>
    cases prev <;> simp [Simulator.simStep, h]

/-- Starting from an open position with entry price `b`, the run sells exactly at the
first row whose close meets the take-profit or stop-loss threshold relative to `b`
(both sides are the list length when no row meets it). -/
lemma simRun_findIdx_sell (init tc tp sl b : ℚ) :
    ∀ (rows : List (Int × ℚ)) (prev : Option Simulator.SRow),
      ((Simulator.simRun init tc tp sl true b prev rows).map Prod.snd).findIdx
          (· == Simulator.Action.sell)
        = rows.findIdx (fun rc => decide ((rc.2 - b) / b ≥ tp) || decide ((rc.2 - b) / b ≤ -sl))
  | [], prev => by simp [Simulator.simRun]
  | (s, c) :: rest, prev => by
    rcases hst : Simulator.simStep init tc tp sl true b prev s c with ⟨r, o2, b2, a⟩
    have hs := simStep_snd_open init tc tp sl b prev s c
    rw [hst] at hs
    by_cases h : (c - b) / b ≥ tp ∨ (c - b) / b ≤ -sl
    · rw [if_pos h] at hs
      obtain ⟨ho, hb2, ha⟩ : o2 = false ∧ b2 = b ∧ a = Simulator.Action.sell := by
        simpa [Prod.ext_iff] using hs
      have hd : (decide ((c - b) / b ≥ tp) || decide ((c - b) / b ≤ -sl)) = true := by
        rcases h with h | h <;> simp [h]
      subst ha
      simp [Simulator.simRun, hst, List.findIdx_cons, hd]
    · rw [if_neg h] at hs
      obtain ⟨ho, hb2, ha⟩ : o2 = true ∧ b2 = b ∧ a = Simulator.Action.hold := by
        simpa [Prod.ext_iff] using hs
      push_neg at h
      have hd1 : decide ((c - b) / b ≥ tp) = false := by simpa using h.1
      have hd2 : decide ((c - b) / b ≤ -sl) = false := by simpa using h.2
      have hb : (Simulator.Action.hold == Simulator.Action.sell) = false := rfl
      subst ha
      subst ho
      simp [Simulator.simRun, hst, hb2, List.findIdx_cons, hd1, hd2, hb,
        simRun_findIdx_sell init tc tp sl b rest]

/-- The prefix minimum computed by a left fold never exceeds its seed. -/
lemma foldl_min_le (l : List ℚ) : ∀ a : ℚ, l.foldl min a ≤ a := by
  induction l with
  | nil => intro a; simp
  | cons x l ih =>
    intro a
    calc l.foldl min (min a x) ≤ min a x := ih (min a x)
    _ ≤ a := min_le_left a x

/-- Along a non-decreasing tail, every expanding-maximum drawdown entry is zero. -/
lemma ddGo_chain_zero : ∀ (l : List ℚ) (m : ℚ), List.Chain (· ≤ ·) m l →
    Simulator.ddGo m l = List.replicate l.length 0
  | [], m, _ => rfl
  | x :: xs, m, h => by
    rcases h with _ | ⟨hmx, hxs⟩
    simp [Simulator.ddGo, max_eq_right hmx, ddGo_chain_zero xs x hxs,
      List.replicate_succ]

/-- A fold of `min` over zeros starting at zero stays zero. -/
lemma foldl_min_zero : ∀ n : ℕ, (List.replicate n (0 : ℚ)).foldl min 0 = 0
  | 0 => rfl
  | n + 1 => by simp [List.replicate_succ, foldl_min_zero n]

/-- Returns of a constant positive series are all zero. -/
lemma pctGo_replicate (c : ℚ) (hc : c ≠ 0) :
    ∀ k : ℕ, pctGo c (List.replicate k c) = List.replicate k 0
  | 0 => rfl
  | k + 1 => by
    simp [List.replicate_succ, pctGo, div_self hc, pctGo_replicate c hc k]

/-- The mean of a constant nonempty series is its value. -/
lemma listMean_replicate (k : ℕ) (x : ℚ) : listMean (List.replicate (k + 1) x) = x := by
  have hk : ((k : ℚ) + 1) ≠ 0 := by positivity
  simp [listMean, List.sum_replicate, nsmul_eq_mul]
  rw [mul_comm, mul_div_assoc]
  rw [div_self hk, mul_one]

/-- The sample variance of a constant series is zero. -/
lemma svar_replicate (k : ℕ) (x : ℚ) : svar (List.replicate k x) = 0 := by
  cases k with
  | zero => simp [svar, listMean]
  | succ k =>
    simp [svar, listMean_replicate k x, List.map_replicate, List.sum_replicate]

end Lemmas

section LengthLemmas

lemma ffillO_length (l : List OQ) : ∀ last : OQ, (ffillO last l).length = l.length := by
  induction l with
  | nil => intro last; rfl
  | cons b bs ih => intro last; cases b <;> simp [ffillO, ih]

lemma ffillZ_length (l : List Int) : ∀ last : Int, (ffillZ last l).length = l.length := by
  induction l with
  | nil => intro last; rfl
  | cons p ps ih => intro last; simp [ffillZ, ih]

lemma assembleRows_length (rs : List (Int × OQ)) :
    ∀ (shs bs : List OQ) (ts : List ℚ) (ps : List Int) (vs : List OQ),
      shs.length = rs.length → bs.length = rs.length → ts.length = rs.length →
      ps.length = rs.length → vs.length = rs.length →
      (assembleRows rs shs bs ts ps vs).length = rs.length := by
  induction rs with
  | nil =>
    intro shs bs ts ps vs h1 h2 h3 h4 h5
    cases shs <;> cases bs <;> cases ts <;> cases ps <;> cases vs <;>
      simp_all [assembleRows]
  | cons rc rs ih =>
    intro shs bs ts ps vs h1 h2 h3 h4 h5
    obtain ⟨s, c⟩ := rc
    cases shs with
    | nil => simp at h1
    | cons sh shs =>
      cases bs with
      | nil => simp at h2
      | cons b bs =>
        cases ts with
        | nil => simp at h3
        | cons t ts =>
          cases ps with
          | nil => simp at h4
          | cons p ps =>
            cases vs with
            | nil => simp at h5
            | cons v vs =>
              simp only [List.length_cons] at h1 h2 h3 h4 h5 ⊢
              rw [assembleRows, List.length_cons,
                ih shs bs ts ps vs (by omega) (by omega) (by omega) (by omega) (by omega)]

/-- The vectorized backtest always yields exactly one result row per input row. -/
lemma backtest_length (init tc : ℚ) (rows : List (Int × OQ)) :
    (Backtester.backtest init tc rows).length = rows.length := by
  refine assembleRows_length rows _ _ _ _ _ ?_ ?_ ?_ ?_ ?_
  · simp
  · rw [ffillO_length]
    simp only [List.length_zipWith, List.length_zip, List.length_map, List.length_cons]
    omega
  · simp
  · rw [ffillZ_length]
    simp
  · simp only [List.length_zipWith, List.length_zip, List.length_map, List.length_cons,
      ffillO_length]
    omega

end LengthLemmas

section Claims

/-- Claim C1.  The claimed invariant `shares_held > 0 ⟺ position_open` fails on the trace
of `Simulator.execute_trade`: with signals `[0, 1]` and closes `[100, 110]` the buy at
row 1 sets `Position = 1`, but the unconditional carry-forward of the Position column
then overwrites it with the previous row's `0`, so row 1 holds 90 shares while its
position flag is cleared. -/
theorem claim_C1_position_flag_violated :
    ((Simulator.executeTrade 10000 10 (1/20) (1/50) [(0, 100), (1, 110)]).map
        (fun r => (r.shares, r.position))) = [(0, 0), (90, 0)] ∧
    ¬ (∀ r ∈ Simulator.executeTrade 10000 10 (1/20) (1/50) [(0, 100), (1, 110)],
        0 < r.shares ↔ r.position = 1) := by
  constructor <;>
    norm_num [Simulator.executeTrade, Simulator.simRun, Simulator.simStep, ratTrunc]

/-- Claim C3.  Cash can go negative in `Simulator.execute_trade`: with
`initial_balance = 5`, `transaction_cost = 10` and a buy signal at close 100 the computed
share count is 0, yet the branch still debits the fee, leaving `Balance = -5`; the
rejection of zero-share or underfunded buys claimed by the spec (and implemented by
`Portfolio.execute_trade`) is absent here. -/
theorem claim_C3_negative_cash :
    ((Simulator.executeTrade 5 10 (1/20) (1/50) [(1, 100)]).map
        (fun r => (r.shares, r.balance, r.position))) = [(0, -5, 1)] ∧
    ¬ (∀ r ∈ Simulator.executeTrade 5 10 (1/20) (1/50) [(1, 100)], 0 ≤ r.balance) := by
  constructor <;>
    norm_num [Simulator.executeTrade, Simulator.simRun, Simulator.simStep, ratTrunc]

/-- Claim C6.  The win rate of `Simulator.calculate_metrics` is computed over daily bars,
not closed trades: on the run with signals `[1, 0, 0]` and closes `[100, 104, 90]` the
single closed trade loses money (it credits `int(99*90 - 10) = 8900` against a cost of
`99*100 + 10 = 9910`), yet the computed win rate is 100 because both nonzero daily
returns of the (mis-accounted) Portfolio_Value column are positive. -/
theorem claim_C6_win_rate_daily_bars :
    Simulator.winRate ((Simulator.executeTrade 10000 10 (1/20) (1/50)
        [(1, 100), (0, 104), (0, 90)]).map Simulator.TRow.pv) = 100 ∧
    Simulator.tradeActions 10000 10 (1/20) (1/50) [(1, 100), (0, 104), (0, 90)]
      = [Simulator.Action.buy, Simulator.Action.hold, Simulator.Action.sell] ∧
    (ratTrunc (99 * 90 - 10) : ℚ) < 99 * 100 + 10 := by
  refine ⟨?_, ?_, by norm_num [ratTrunc]⟩
  · norm_num [Simulator.executeTrade, Simulator.simRun, Simulator.simStep, ratTrunc,
      Simulator.winRate, pctChange, pctGo]
  · norm_num [Simulator.tradeActions, Simulator.simRun, Simulator.simStep, ratTrunc]

/-- Claim C4, counterexample.  On Scenario B (`initial_balance = 10000`,
`transaction_cost = 10`, Buy at 100, Sell two bars later at 90) the code buys
`(10000 - 10) // 100 = 99` whole shares, not the claimed 99.9 fractional shares, so the
balance after the buy is 90 rather than 0, the final balance is 8990 rather than 8981,
and the total return is -10.1 percent rather than -10.19. -/
theorem claim_C4_counterexample :
    ¬ ((Portfolio.states 10 ⟨10000, 0, 0⟩ [(100, 1), (110, 0), (90, -1)]).map
        Portfolio.PState.shares = [999/10, 999/10, 0]) ∧
    ¬ (((Portfolio.states 10 ⟨10000, 0, 0⟩ [(100, 1), (110, 0), (90, -1)]).getLastD
        ⟨0, 0, 0⟩).balance = 8981) ∧
    ¬ (Simulator.totalReturn 10000
        (Portfolio.values 10 ⟨10000, 0, 0⟩ [(100, 1), (110, 0), (90, -1)]) = -1019/100) := by
  refine ⟨?_, ?_, ?_⟩ <;>
    norm_num [Portfolio.states, Portfolio.values, Portfolio.executeTrade, ratFloor,
      Simulator.totalReturn]

/-- Claim C4, amended.  On Scenario B the code buys 99 shares, leaving cash
`10000 - 99*100 - 10 = 90` after the buy; the sell at 90 yields cash
`90 + 99*90 - 10 = 8990`; and the total return is `(8990 - 10000)/10000 * 100 = -10.1`
percent. -/
theorem claim_C4_amended :
    (Portfolio.states 10 ⟨10000, 0, 0⟩ [(100, 1), (110, 0), (90, -1)]).map
        (fun s => (s.balance, s.shares)) = [(90, 99), (90, 99), (8990, 0)] ∧
    Portfolio.values 10 ⟨10000, 0, 0⟩ [(100, 1), (110, 0), (90, -1)]
      = [9990, 10980, 8990] ∧
    Simulator.totalReturn 10000
        (Portfolio.values 10 ⟨10000, 0, 0⟩ [(100, 1), (110, 0), (90, -1)]) = -101/10 := by
  refine ⟨?_, ?_, ?_⟩ <;>
    norm_num [Portfolio.states, Portfolio.values, Portfolio.executeTrade, ratFloor,
      Simulator.totalReturn]

/-- Claim C7, counterexample.  No `AlignmentError` or `EmptyInputError` exists in the
source: on a price frame with timestamp set `{0}` and a signal series with timestamps
`{0, 1}` the backtest still builds a full two-row trace (the unmatched row simply gets a
`NaN` close), and on empty inputs it returns an empty frame instead of failing. -/
theorem claim_C7_counterexample :
    (Backtester.backtestIndexed 10000 10 [(0, 100)] [(0, 1), (1, 0)]).length = 2 ∧
    ((Backtester.backtestIndexed 10000 10 [(0, 100)] [(0, 1), (1, 0)]).map BRow.close)
      = [some 100, none] ∧
    Backtester.backtestIndexed 10000 10 [] [] = [] := by
  refine ⟨?_, ?_, ?_⟩ <;>
    norm_num [Backtester.backtestIndexed, Backtester.backtest, Backtester.priceAt,
      assembleRows, ffillO, ffillZ, oadd, osub, omul, odiv, olift]

/-- Claim C7, amended.  `Backtester.backtest` performs no validation whatsoever: for
every price frame and signal series — aligned or not, empty or not — it builds and
returns a trace with exactly one row per signal timestamp, never raising an error. -/
theorem claim_C7_amended (init tc : ℚ) (prices : List (Nat × ℚ))
    (signals : List (Nat × Int)) :
    (Backtester.backtestIndexed init tc prices signals).length = signals.length := by
  unfold Backtester.backtestIndexed
  rw [backtest_length, List.length_map]

end Claims

section Claims2

/-- Claim C2.  Every row of the trace satisfies `portfolio_value = cash + shares * close`
exactly: in `Simulator.execute_trade` the Portfolio_Value column is assigned as
`Balance + Shares*Close` over the whole frame, and in `Backtester.backtest` likewise
(in `NaN`-propagating cell arithmetic). -/
theorem claim_C2_portfolio_value_identity (init tc tp sl : ℚ) (rows : List (Int × ℚ))
    (vrows : List (Int × OQ)) :
    (∀ r ∈ Simulator.executeTrade init tc tp sl rows,
      r.pv = r.balance + r.shares * r.close) ∧
    (∀ r ∈ Backtester.backtest init tc vrows,
      r.pv = oadd r.balance (omul r.shares r.close)) := by
  constructor
  · intro r hr
    simp only [Simulator.executeTrade, List.mem_map] at hr
    obtain ⟨a, _, rfl⟩ := hr
    rfl
  · intro r hr
    exact assembleRows_pv vrows _ _ _ _ r hr

/-- Claim C2, witness: the invariant instantiated on the one-row run with a buy at
close 100 for both implementations. -/
theorem claim_C2_portfolio_value_identity_witness :
    (Simulator.TRow.mk ⟨1, 100, 99, 90, 10, 1⟩ 9990
        ∈ Simulator.executeTrade 10000 10 (1/20) (1/50) [(1, 100)] ∧
      (Simulator.TRow.mk ⟨1, 100, 99, 90, 10, 1⟩ 9990).pv
        = (Simulator.TRow.mk ⟨1, 100, 99, 90, 10, 1⟩ 9990).balance
            + (Simulator.TRow.mk ⟨1, 100, 99, 90, 10, 1⟩ 9990).shares
                * (Simulator.TRow.mk ⟨1, 100, 99, 90, 10, 1⟩ 9990).close) ∧
    (BRow.mk 1 (some 100) (some (999/10)) (some 0) 10 1 (some 9990)
        ∈ Backtester.backtest 10000 10 [(1, some 100)] ∧
      (BRow.mk 1 (some 100) (some (999/10)) (some 0) 10 1 (some 9990)).pv
        = oadd (BRow.mk 1 (some 100) (some (999/10)) (some 0) 10 1 (some 9990)).balance
            (omul (BRow.mk 1 (some 100) (some (999/10)) (some 0) 10 1 (some 9990)).shares
              (BRow.mk 1 (some 100) (some (999/10)) (some 0) 10 1 (some 9990)).close)) := by
  have hm1 : Simulator.TRow.mk ⟨1, 100, 99, 90, 10, 1⟩ 9990
      ∈ Simulator.executeTrade 10000 10 (1/20) (1/50) [(1, 100)] := by
    norm_num [Simulator.executeTrade, Simulator.simRun, Simulator.simStep, ratTrunc]
  have hm2 : BRow.mk 1 (some 100) (some (999/10)) (some 0) 10 1 (some 9990)
      ∈ Backtester.backtest 10000 10 [(1, some 100)] := by
    norm_num [Backtester.backtest, assembleRows, ffillO, ffillZ, oadd, osub, omul,
      odiv, olift]
  exact ⟨⟨hm1, (claim_C2_portfolio_value_identity 10000 10 (1/20) (1/50) [(1, 100)]
      [(1, some 100)]).1 _ hm1⟩,
    ⟨hm2, (claim_C2_portfolio_value_identity 10000 10 (1/20) (1/50) [(1, 100)]
      [(1, some 100)]).2 _ hm2⟩⟩

/-- Claim C5.  In threshold mode, once a position is open with entry price `b`, the run
sells exactly at the first row whose close `c` satisfies `(c - b)/b ≥ take_profit` or
`(c - b)/b ≤ -stop_loss`, and at no earlier row; concretely, with `take_profit = 0.05`,
entry at 100 and closes `[100, 103, 106]`, the exit fires at the close 106, not at 103. -/
theorem claim_C5_threshold_exit_first :
    (∀ (init tc tp sl b : ℚ) (prev : Option Simulator.SRow) (rows : List (Int × ℚ)),
      ((Simulator.simRun init tc tp sl true b prev rows).map Prod.snd).findIdx
          (· == Simulator.Action.sell)
        = rows.findIdx (fun rc =>
            decide ((rc.2 - b) / b ≥ tp) || decide ((rc.2 - b) / b ≤ -sl))) ∧
    Simulator.tradeActions 10000 10 (1/20) (1/50) [(1, 100), (0, 103), (0, 106)]
      = [Simulator.Action.buy, Simulator.Action.hold, Simulator.Action.sell] := by
  constructor
  · intro init tc tp sl b prev rows
    exact simRun_findIdx_sell init tc tp sl b rows prev
  · norm_num [Simulator.tradeActions, Simulator.simRun, Simulator.simStep, ratTrunc]

/-- Claim C8.  The computed Sharpe ratio is `sqrt(252) * mean / std` of the excess
returns when their standard deviation is positive, and 0 when it is 0 — in particular 0
on every flat (constant positive) portfolio-value series — rather than a division
error. -/
theorem claim_C8_sharpe_guard (pv : List ℚ) :
    (0 < svar (Simulator.excessReturns pv) →
      Simulator.sharpe pv
        = Real.sqrt 252 * ((listMean (Simulator.excessReturns pv) : ℚ) : ℝ)
            / Real.sqrt ((svar (Simulator.excessReturns pv) : ℚ) : ℝ)) ∧
    (svar (Simulator.excessReturns pv) = 0 → Simulator.sharpe pv = 0) ∧
    (∀ (n : ℕ) (c : ℚ), 0 < c → Simulator.sharpe (List.replicate n c) = 0) := by
  refine ⟨?_, ?_, ?_⟩
  · intro h
    rw [Simulator.sharpe, if_pos h]
  · intro h
    rw [Simulator.sharpe, if_neg (by rw [h]; exact lt_irrefl 0)]
  · intro n c hc
    have hpc : pctChange (List.replicate n c) = List.replicate n 0 := by
      cases n with
      | zero => rfl
      | succ k =>
        rw [List.replicate_succ, pctChange, pctGo_replicate c (ne_of_gt hc) k,
          List.replicate_succ]
    have hex : Simulator.excessReturns (List.replicate n c)
        = List.replicate n (0 - (1 / 100) / 252) := by
      rw [Simulator.excessReturns, hpc, List.map_replicate]
    rw [Simulator.sharpe, hex, if_neg (by rw [svar_replicate]; exact lt_irrefl 0)]

/-- Claim C8, witness: a flat three-row series has Sharpe ratio 0, and a rising two-row
series has positive excess-return variance, so its Sharpe ratio is the annualised
mean-over-std formula. -/
theorem claim_C8_sharpe_guard_witness :
    Simulator.sharpe (List.replicate 3 (5 : ℚ)) = 0 ∧
    (0 < svar (Simulator.excessReturns [100, 110]) ∧
      Simulator.sharpe [100, 110]
        = Real.sqrt 252 * ((listMean (Simulator.excessReturns [100, 110]) : ℚ) : ℝ)
            / Real.sqrt ((svar (Simulator.excessReturns [100, 110]) : ℚ) : ℝ)) := by
  have h : 0 < svar (Simulator.excessReturns [100, 110]) := by
    norm_num [Simulator.excessReturns, pctChange, pctGo, svar, listMean]
  exact ⟨(claim_C8_sharpe_guard (List.replicate 3 5)).2.2 3 5 (by norm_num), h,
    (claim_C8_sharpe_guard [100, 110]).1 h⟩

/-- Claim C9.  The computed maximum drawdown is never positive, and it is 0 whenever the
portfolio-value curve is non-decreasing. -/
theorem claim_C9_drawdown_sign (pv : List ℚ) (hne : pv ≠ [])
    (hpos : ∀ v ∈ pv, 0 < v) :
    Simulator.maxDrawdown pv ≤ 0 ∧
    (List.Chain' (· ≤ ·) pv → Simulator.maxDrawdown pv = 0) := by
  obtain ⟨v, vs, rfl⟩ := List.exists_cons_of_ne_nil hne
  constructor
  · have h0 : Simulator.drawdowns (v :: vs) = 0 :: Simulator.ddGo v vs := by
      rw [Simulator.drawdowns, Simulator.ddGo]
      simp
    rw [Simulator.maxDrawdown, h0]
    have hmin : listMin (0 :: Simulator.ddGo v vs) ≤ 0 := by
      rw [listMin]
      exact foldl_min_le _ 0
    have := mul_le_mul_of_nonneg_right hmin (by norm_num : (0 : ℚ) ≤ 100)
    simpa using this
  · intro hch
    have hchain : List.Chain (· ≤ ·) v (v :: vs) :=
      List.Chain.cons (le_refl v) hch
    have hdd : Simulator.drawdowns (v :: vs) = List.replicate (vs.length + 1) 0 := by
      rw [Simulator.drawdowns]
      simpa using ddGo_chain_zero (v :: vs) v hchain
    rw [Simulator.maxDrawdown, hdd, List.replicate_succ, listMin, foldl_min_zero]
    norm_num

/-- Claim C9, witness: a strictly rising positive curve has maximum drawdown exactly 0. -/
theorem claim_C9_drawdown_sign_witness :
    Simulator.maxDrawdown [1, 2] ≤ 0 ∧ Simulator.maxDrawdown [1, 2] = 0 := by
  have h := claim_C9_drawdown_sign [1, 2] (by simp) (by norm_num)
  exact ⟨h.1, h.2 (by norm_num [List.chain'_cons, List.chain'_singleton])⟩

/-- Claim C10.  `Backtester.backtest` and `Portfolio.backtest` are the same vectorized
computation in the source, so they produce identical values in every shared column
(Signal, Close, Position, Shares, Balance, Transaction_Cost, Portfolio_Value) on every
input. -/
theorem claim_C10_backtests_identical (init tc : ℚ) (rows : List (Int × OQ)) :
    Backtester.backtest init tc rows = Portfolio.backtest init tc rows := rfl

end Claims2
